import Mathlib

/-!
Verification of the doculinka-api signing/audit core against its
natural-language specification.

The JavaScript services are shallowly embedded as pure Lean functions over
explicit state values.  External primitives are modelled as symbolic,
injective, executable functions:

* `sha256Hex s` stands for the lowercase-hex SHA-256 digest of the string
  `s` (`crypto.createHash('sha256').update(s).digest('hex')`); collision
  freeness of the digest is modelled by injectivity of the symbolic tag.
* `isoString t` stands for `new Date(t).toISOString()` for an epoch
  millisecond count `t`; distinct millisecond instants give distinct
  ISO-8601 strings.
* `bcryptHash c` stands for `bcrypt.hash(c, 10)`; `bcrypt.compare(c, h)`
  is modelled as `h == bcryptHash c`.

JavaScript objects that are serialized with `JSON.stringify` are modelled
as insertion-ordered association lists of `JsVal`; `JsVal.undefVal` models a
JavaScript `undefined` field (omitted by `JSON.stringify`), `JsVal.nul`
models a database `NULL` (serialized as `null`).  Object-literal spread
`{a, b, ..., ...payload}` is modelled by `jsMerge`, which keeps the first
occurrence position of a key and lets the spread value win.
-/

/-- Symbolic stand-in for the lowercase-hex SHA-256 digest of a string. -/
def sha256Hex (s : String) : String := "sha256:" ++ s

/-- Symbolic stand-in for `new Date(t).toISOString()` at epoch millisecond `t`. -/
def isoString (t : Nat) : String := "ISO:" ++ toString t

/-- Symbolic stand-in for `bcrypt.hash(code, 10)`. -/
def bcryptHash (code : String) : String := "bcrypt:" ++ code

theorem sha256Hex_injective : Function.Injective sha256Hex := by
  intro a b h
  have hd : ("sha256:" ++ a).data = ("sha256:" ++ b).data := congrArg String.data h
  simp only [String.data_append] at hd
  exact String.ext (List.append_cancel_left hd)

/-- A JavaScript value appearing in an audit payload record. -/
inductive JsVal where
  | str (s : String)
  | nul
  | undefVal
  deriving DecidableEq, Repr

/-- Minimal JSON string escaping (backslash and double quote), as done by
`JSON.stringify` for the characters exercised here. -/
def jsEscapeChar (c : Char) : String :=
  if c = '"' then "\\\"" else if c = '\\' then "\\\\" else String.singleton c

def jsQuote (s : String) : String :=
  "\"" ++ String.join (s.data.map jsEscapeChar) ++ "\""

/-- Serialization of one key/value pair; `undefVal` pairs are omitted by
`JSON.stringify`, which the caller handles by filtering. -/
def jsPairString (kv : String × JsVal) : String :=
  match kv.2 with
  | .str s => jsQuote kv.1 ++ ":" ++ jsQuote s
  | .nul => jsQuote kv.1 ++ ":null"
  | .undefVal => ""

/-- `JSON.stringify` of an insertion-ordered object: keys keep their
insertion order; `undefined`-valued keys are omitted. -/
def jsonStringify (l : List (String × JsVal)) : String :=
  "\x7b" ++
    String.intercalate ","
      ((l.filter (fun kv => kv.2 != JsVal.undefVal)).map jsPairString) ++
  "\x7d"

/-- JavaScript object-literal spread `{ ...base-literal, ...extra }`:
keys of `base` keep their position, with the value overridden by the last
occurrence in `extra` when present; keys of `extra` that are not in `base`
are appended in order. -/
def jsMerge (base extra : List (String × JsVal)) : List (String × JsVal) :=
  (base.map (fun kv =>
    match (extra.reverse).find? (fun kv2 => kv2.1 == kv.1) with
    | some kv2 => (kv.1, kv2.2)
    | none => kv)) ++
  extra.filter (fun kv2 => !(base.any (fun kv => kv.1 == kv2.1)))

/-- One row of the `AuditLog` table (src/features/audit/audit.service.js).
`createdAt` is the epoch-millisecond instant Sequelize stamps on the row at
insert time; `Option.none` in `actorId`/`ip`/`userAgent` models a stored
SQL `NULL` (written when the caller passed `undefined`). -/
structure AuditEntry where
  id : Nat
  tenantId : String
  actorKind : String
  actorId : Option String
  entityType : String
  entityId : String
  action : String
  ip : Option String
  userAgent : Option String
  payloadJson : List (String × JsVal)
  prevEventHash : String
  eventHash : String
  createdAt : Nat
  deriving DecidableEq, Repr

/-- The input record of `createEntry` (`logData`). `none` models an absent
(`undefined`) field. -/
structure LogData where
  tenantId : String
  actorKind : String
  actorId : Option String
  entityType : String
  entityId : String
  action : String
  ip : Option String
  userAgent : Option String
  payload : List (String × JsVal)
  deriving DecidableEq, Repr

/-- Writer-side view of an optional field: an absent field is the
JavaScript value `undefined`. -/
def jsOfWriter : Option String → JsVal
  | some s => .str s
  | none => .undefVal

/-- Reader-side view of an optional column: a SQL `NULL` is read back by
Sequelize as JavaScript `null`. -/
def jsOfRow : Option String → JsVal
  | some s => .str s
  | none => .nul

/-- `payloadToHash` as built by `createEntry`:
`{actorKind, actorId, entityType, entityId, action, ip, userAgent, ...payload}`. -/
def payloadToHash (d : LogData) : List (String × JsVal) :=
  jsMerge
    [("actorKind", .str d.actorKind), ("actorId", jsOfWriter d.actorId),
     ("entityType", .str d.entityType), ("entityId", .str d.entityId),
     ("action", .str d.action), ("ip", jsOfWriter d.ip),
     ("userAgent", jsOfWriter d.userAgent)]
    d.payload

/-- `genesis_block_` hash used for the first link of an entity chain. -/
def genesisHash (entityId : String) : String :=
  sha256Hex ("genesis_block_" ++ entityId)

/-- `AuditLog.findOne({where: {entityId}, order: [['createdAt','DESC']]})`:
the row with the greatest `createdAt` (later insertion wins a tie). -/
def lastByCreatedAt : List AuditEntry → Option AuditEntry
  | [] => none
  | e :: rest =>
    match lastByCreatedAt rest with
    | none => some e
    | some m => if m.createdAt < e.createdAt then some e else some m

/-- The per-entity chain: all stored rows whose `entityId` matches. -/
def chainOf (entityId : String) (st : List AuditEntry) : List AuditEntry :=
  st.filter (fun e => e.entityId == entityId)

/-- `createEntry` of src/features/audit/audit.service.js.  The audit store
`st` is the list of rows in insertion order.  The code reads the clock
twice: `tHash` is the `new Date().toISOString()` instant hashed into
`eventHash`, and `tRow` is the separate instant Sequelize stamps as the
row's `createdAt` (the code passes no `createdAt` to `AuditLog.create`). -/
def prevHashOf (entityId : String) (st : List AuditEntry) : String :=
  match lastByCreatedAt (chainOf entityId st) with
  | some lastEvent => lastEvent.eventHash
  | none => genesisHash entityId

/-- The row `createEntry` inserts, given the store `st` it found. -/
def newAuditRow (d : LogData) (tHash tRow : Nat) (st : List AuditEntry) :
    AuditEntry :=
  { id := st.length, tenantId := d.tenantId, actorKind := d.actorKind,
    actorId := d.actorId, entityType := d.entityType,
    entityId := d.entityId, action := d.action, ip := d.ip,
    userAgent := d.userAgent, payloadJson := d.payload,
    prevEventHash := prevHashOf d.entityId st,
    eventHash := sha256Hex (prevHashOf d.entityId st ++
      (jsonStringify (payloadToHash d) ++ isoString tHash)),
    createdAt := tRow }

def createEntry (d : LogData) (tHash tRow : Nat) (st : List AuditEntry) :
    List AuditEntry :=
  st ++ [newAuditRow d tHash tRow st]

/-- A sequence of `createEntry` appends starting from the empty store;
each element carries the log data and the two clock readings. -/
def appendTrace (trace : List (LogData × Nat × Nat)) : List AuditEntry :=
  trace.foldl (fun st x => createEntry x.1 x.2.1 x.2.2 st) []

/-- Forward links of a chain after its head: each entry's `prevEventHash`
equals its predecessor's `eventHash`. -/
def linked : AuditEntry → List AuditEntry → Bool
  | _, [] => true
  | p, e :: rest => (e.prevEventHash == p.eventHash) && linked e rest

/-- The claimed per-entity chain shape: the first entry links to the
genesis hash of the entity, every later entry to its predecessor. -/
def chainOk (entityId : String) : List AuditEntry → Bool
  | [] => true
  | e :: rest => (e.prevEventHash == genesisHash entityId) && linked e rest

/-! ## The chain verifier (src/features/document/document.service.js,
`verifyAuditLogChain`) -/

/-- The per-row hash recomputation of `verifyAuditLogChain`: the stored
`prevEventHash`, the reconstructed `payloadToHash` (metadata columns
spread-merged with `payloadJson`; a NULL column reads back as `null`), and
`new Date(createdAt).toISOString()`. -/
def recomputeHash (e : AuditEntry) : String :=
  sha256Hex (e.prevEventHash ++
    jsonStringify (jsMerge
      [("actorKind", .str e.actorKind), ("actorId", jsOfRow e.actorId),
       ("entityType", .str e.entityType), ("entityId", .str e.entityId),
       ("action", .str e.action), ("ip", jsOfRow e.ip),
       ("userAgent", jsOfRow e.userAgent)]
      e.payloadJson) ++
    isoString e.createdAt)

/-- Result object of the verifier: `{isValid: true, count}` or
`{isValid: false, brokenEventId, reason}`. -/
inductive VerifyResult where
  | valid (count : Nat)
  | broken (brokenEventId : Nat) (reason : String)
  deriving DecidableEq, Repr

/-- The verifier loop: for each row after the first, `prevEventHash` must
match the immediately preceding fetched row's `eventHash`; every row's
`eventHash` must match the recomputation. `total` is `logs.length`. -/
def verifyGo (total : Nat) : Option AuditEntry → List AuditEntry → VerifyResult
  | _, [] => .valid total
  | some p, e :: rest =>
    if e.prevEventHash ≠ p.eventHash then
      .broken e.id "Link Quebrado (Hash Anterior incorreto)"
    else if recomputeHash e ≠ e.eventHash then
      .broken e.id "Conteúdo Alterado (Hash Mismatch)"
    else verifyGo total (some e) rest
  | none, e :: rest =>
    if recomputeHash e ≠ e.eventHash then
      .broken e.id "Conteúdo Alterado (Hash Mismatch)"
    else verifyGo total (some e) rest

/-- Verification of one fetched row list (ordered by `createdAt` ASC). -/
def verifyChainList (logs : List AuditEntry) : VerifyResult :=
  if logs.isEmpty then .valid 0 else verifyGo logs.length none logs

/-! ## Database rows and service state -/

structure UserRow where
  id : String
  tenantId : String
  name : String
  email : String
  deriving DecidableEq, Repr

structure DocumentRow where
  id : String
  tenantId : String
  ownerId : String
  title : String
  storageKey : String
  sha256 : String
  status : String
  createdAt : Nat
  deriving DecidableEq, Repr

structure SignerRow where
  id : String
  documentId : String
  name : String
  email : String
  phoneWhatsE164 : Option String
  authChannels : List String
  status : String
  signedAt : Option Nat
  signatureHash : Option String
  signatureArtefactPath : Option String
  signaturePositionX : Option ℚ
  signaturePositionY : Option ℚ
  signaturePositionPage : Option Nat
  deriving DecidableEq, Repr

structure CertificateRow where
  documentId : String
  storageKey : String
  sha256 : String
  issuedAt : Nat
  deriving DecidableEq, Repr

structure OtpRow where
  id : Nat
  recipient : String
  channel : String
  codeHash : String
  expiresAt : Nat
  context : String
  createdAt : Nat
  deriving DecidableEq, Repr

/-- The persistent state the verified operations touch.  Lists are kept in
insertion order; `auditLog` and `otpCodes` rows carry their `createdAt`,
and all traces considered here use a monotone clock so that insertion
order and `createdAt` order agree.  `files` maps a storage key to the file
bytes (most recent write first). -/
structure St where
  users : List UserRow
  documents : List DocumentRow
  signers : List SignerRow
  auditLog : List AuditEntry
  certificates : List CertificateRow
  otpCodes : List OtpRow
  files : List (String × String)
  deriving DecidableEq, Repr

/-- The rows fetched by `verifyAuditLogChain` for a document: the
document's own `DOCUMENT` rows together with the `SIGNER` rows of each of
its signers, in `createdAt` (= insertion) order, as one merged list. -/
def fetchDocLogs (docId : String) (st : St) : List AuditEntry :=
  let signerIds := (st.signers.filter (fun s => s.documentId == docId)).map (·.id)
  st.auditLog.filter (fun e =>
    (e.entityType == "DOCUMENT" && e.entityId == docId) ||
    (e.entityType == "SIGNER" && signerIds.contains e.entityId))

/-- `verifyAuditLogChain` of document.service.js: fetch the merged row
list for the document and its signers and run the verifier loop on it. -/
def verifyAuditLogChain (docId : String) (st : St) : VerifyResult :=
  verifyChainList (fetchDocLogs docId st)

/-! ## The validator (`validatePdfIntegrity`) -/

structure SignerSummary where
  name : String
  email : String
  status : String
  signedAt : Option Nat
  deriving DecidableEq, Repr

structure DocSummary where
  title : String
  status : String
  createdAt : Nat
  ownerName : String
  signers : List SignerSummary
  deriving DecidableEq, Repr

inductive ValidationResult where
  | invalid
  | valid (document : DocSummary)
  deriving DecidableEq, Repr

/-- The response document of `validatePdfIntegrity`: title, status,
createdAt, the owner's name (`'Desconhecido'` when the owner row is
missing) and the signers projected to name/email/status/signedAt. -/
def docSummary (d : DocumentRow) (st : St) : DocSummary :=
  { title := d.title, status := d.status, createdAt := d.createdAt,
    ownerName :=
      match st.users.find? (fun u => u.id == d.ownerId) with
      | some u => u.name
      | none => "Desconhecido",
    signers := (st.signers.filter (fun s => s.documentId == d.id)).map
      (fun s => { name := s.name, email := s.email, status := s.status,
                  signedAt := s.signedAt }) }

/-- `validatePdfIntegrity` of document.service.js: hash the uploaded
bytes, look a Document up by `sha256`, and report provenance.  The
returned state is the state the operation leaves behind (the code only
performs a SELECT). -/
def validatePdfIntegrity (fileBuffer : String) (st : St) :
    ValidationResult × St :=
  let hash := sha256Hex fileBuffer
  match st.documents.find? (fun d => d.sha256 == hash) with
  | none => (.invalid, st)
  | some doc => (.valid (docSummary doc st), st)

/-! ## Document status change (`changeDocumentStatus`) -/

/-- `changeDocumentStatus` of document.service.js: find the document in
the user's tenant, set its status to `newStatus` unconditionally, and
append a `STATUS_CHANGED{newStatus}` audit entry.  `tHash`/`tRow` are the
clock readings of the inner `createEntry`. -/
def changeDocumentStatus (docId newStatus : String) (user : UserRow)
    (tHash tRow : Nat) (st : St) : Except String (DocumentRow × St) :=
  match st.documents.find? (fun d => d.id == docId && d.tenantId == user.tenantId) with
  | none => .error "Documento não encontrado."
  | some document =>
    let doc2 := { document with status := newStatus }
    let st2 :=
      { st with
        documents := st.documents.map (fun d => if d.id == document.id then doc2 else d),
        auditLog := createEntry
          { tenantId := user.tenantId, actorKind := "USER",
            actorId := some user.id, entityType := "DOCUMENT",
            entityId := docId, action := "STATUS_CHANGED",
            ip := some "SYSTEM", userAgent := some "SYSTEM",
            payload := [("newStatus", .str newStatus)] }
          tHash tRow st.auditLog }
    .ok (doc2, st2)

/-! ## OTP store and verification (src/features/signer/signer.service.js) -/

/-- The recipient contact list of `verifyOtp`:
`[signer.email, signer.phoneWhatsE164].filter(Boolean)` — a missing phone
and empty strings are dropped. -/
def recipientsOf (s : SignerRow) : List String :=
  (if s.email == "" then [] else [s.email]) ++
  (match s.phoneWhatsE164 with
   | some p => if p == "" then [] else [p]
   | none => [])

/-- `startOtpVerification`: one 6-digit code `otp` is drawn and bcrypt
hashed once; for each configured channel with a present recipient one
`OtpCode` row `{recipient, channel, codeHash, expiresAt = now+10min,
context: 'SIGNING'}` is created.  `now` is the epoch-millisecond clock
reading; row ids continue from the store length.  (The notification send
and the `OTP_SENT` audit entries do not touch the OTP store and are not
modelled here.) -/
def startOtpVerification (s : SignerRow) (otp : String) (now : Nat)
    (store : List OtpRow) : List OtpRow :=
  let codeHash := bcryptHash otp
  let expiresAt := now + 10 * 60 * 1000
  store ++ ((s.authChannels.filterMap (fun channel =>
      let recipient := if channel == "EMAIL" then some s.email else s.phoneWhatsE164
      match recipient with
      | some r => some (channel, r)
      | none => none)).enum.map (fun x =>
        { id := store.length + x.1, recipient := x.2.2, channel := x.2.1,
          codeHash := codeHash, expiresAt := expiresAt,
          context := "SIGNING", createdAt := now }))

/-- `OtpCode.findOne({where: {recipient: recipients, context: 'SIGNING'},
order: [['createdAt','DESC']]})`. -/
def latestOtpRow (recipients : List String) : List OtpRow → Option OtpRow
  | [] => none
  | r :: rest =>
    match latestOtpRow recipients rest with
    | none => if recipients.contains r.recipient && r.context == "SIGNING" then some r else none
    | some m =>
      if (recipients.contains r.recipient && r.context == "SIGNING") && m.createdAt < r.createdAt
      then some r else some m

/-- `verifyOtp`: look the most recent `SIGNING` code row up by the
signer's contacts, fail with the not-found/expired error or the
wrong-code error (each appending an `OTP_FAILED` audit entry), or succeed,
appending `OTP_VERIFIED` and destroying that single row.  `now` is the
clock reading of the expiry check, `tHash`/`tRow` those of the inner
`createEntry`.  Returns the new OTP store and audit log on success. -/
def verifyOtp (tenantId : String) (s : SignerRow) (otp : String)
    (ip ua : String) (now tHash tRow : Nat)
    (store : List OtpRow) (audit : List AuditEntry) :
    Except String (List OtpRow × List AuditEntry) :=
  let failEntry := fun (reason : String) => createEntry
    { tenantId := tenantId, actorKind := "SIGNER", actorId := some s.id,
      entityType := "OTP", entityId := s.id, action := "OTP_FAILED",
      ip := some ip, userAgent := some ua,
      payload := [("reason", .str reason)] } tHash tRow audit
  match latestOtpRow (recipientsOf s) store with
  | none =>
    let _ := failEntry "Expired or not found"
    .error "Código OTP inválido ou expirado."
  | some otpRecord =>
    if otpRecord.expiresAt < now then
      let _ := failEntry "Expired or not found"
      .error "Código OTP inválido ou expirado."
    else if otpRecord.codeHash != bcryptHash otp then
      let _ := failEntry "Wrong code"
      .error "Código OTP inválido."
    else
      let audit2 := createEntry
        { tenantId := tenantId, actorKind := "SIGNER", actorId := some s.id,
          entityType := "OTP", entityId := s.id, action := "OTP_VERIFIED",
          ip := some ip, userAgent := some ua, payload := [] } tHash tRow audit
      .ok (store.filter (fun r => r.id != otpRecord.id), audit2)

/-! ## PDF finalizer stamps (src/services/pdf.service.js,
`embedSignatures`) -/

/-- One visual signature stamp: 0-indexed page, bottom-left origin. -/
structure Stamp where
  page : Nat
  x : ℚ
  y : ℚ
  w : ℚ
  h : ℚ
  deriving DecidableEq, Repr

/-- JavaScript truthiness of an optional numeric coordinate: present and
nonzero. -/
def truthyQ : Option ℚ → Bool
  | none => false
  | some v => v != 0

def truthyN : Option Nat → Bool
  | none => false
  | some v => v != 0

/-- The signers `embedSignatures` stamps:
`signers.filter(s => s.status === 'SIGNED' && s.signatureArtefactPath)`. -/
def signedWithArtefact (signers : List SignerRow) : List SignerRow :=
  signers.filter (fun s => s.status == "SIGNED" && s.signatureArtefactPath.isSome)

/-- The stamp placement of `embedSignatures` for the signer at index `i`
of the filtered list. `readable` models whether `fs.readFile` succeeds on
an artefact path (an unreadable artefact is logged and skipped).  With
truthy coordinates the PNG goes to page `signaturePositionPage - 1` at
`(x, y, 180, 65)` — and nowhere if that page does not exist; otherwise it
is stacked on the last page at `((pageWidth-180)/2, 30 + i*(65+10))`. -/
def stampFor (numPages : Nat) (pageWidth : ℚ) (readable : String → Bool)
    (i : Nat) (s : SignerRow) : Option Stamp :=
  if !(readable (s.signatureArtefactPath.getD "")) then none
  else if truthyQ s.signaturePositionX && truthyQ s.signaturePositionY &&
          truthyN s.signaturePositionPage then
    let idx := s.signaturePositionPage.getD 0 - 1
    if idx < numPages then
      some ⟨idx, s.signaturePositionX.getD 0, s.signaturePositionY.getD 0, 180, 65⟩
    else none
  else some ⟨numPages - 1, (pageWidth - 180) / 2, 30 + (i : ℚ) * 75, 180, 65⟩

/-- `embedSignatures`: the list of stamps drawn into the PDF, in signer
order.  `numPages`/`pageWidth` are the page count and last page width of
the loaded PDF. -/
def embedSignatures (numPages : Nat) (pageWidth : ℚ) (readable : String → Bool)
    (signers : List SignerRow) : List Stamp :=
  (signedWithArtefact signers).enum.filterMap
    (fun x => stampFor numPages pageWidth readable x.1 x.2)

/-! ## Signer commit (src/features/signer/signer.service.js,
`commitSignature`) -/

/-- Strip the `data:image/png;base64,` header, as `saveSignatureImage`
does; the stored bytes are modelled by the remaining base64 payload. -/
def stripB64Header (s : String) : String :=
  if s.startsWith "data:image/png;base64," then s.drop 22 else s

/-- The relative artefact path `uploads/{tenantId}/signatures/{signerId}.png`. -/
def artefactPathFor (tenantId signerId : String) : String :=
  "uploads/" ++ tenantId ++ "/signatures/" ++ signerId ++ ".png"

/-- `storageKey.replace(/(\.[\w\d_-]+)$/i, '-signed$1')`: insert
`-signed` before the final extension when one exists. -/
def insertSignedSuffix (key : String) : String :=
  match (key.splitOn ".").reverse with
  | ext :: (b :: bs) => String.intercalate "." ((b :: bs).reverse) ++ "-signed." ++ ext
  | _ => key

/-- Symbolic stand-in for the byte string `pdf-lib` produces when the
signature images of `signers` are embedded into `origBytes` (always a
fresh byte string, distinct from any raw upload).  The visual placement
itself is modelled by `embedSignatures`. -/
def embedSignaturesBytes (origBytes : String) (signers : List SignerRow) : String :=
  "pdf:" ++ origBytes ++ ":" ++ String.intercalate "," (signers.map (·.id))

def lookupFile (key : String) (files : List (String × String)) : Option String :=
  (files.find? (fun kv => kv.1 == key)).map (·.2)

/-- The object `commitSignature` returns to the controller. -/
structure CommitResult where
  shortCode : String
  signatureHash : String
  isComplete : Bool
  deriving DecidableEq, Repr

/-- `commitSignature` (the transaction body): compute `signatureHash` and
`shortCode`, persist the signature PNG, mark the signer SIGNED, append a
`SIGNED` audit entry, and — when every signer of the document is now
SIGNED — embed the stamps, write the `-signed` file, update the document
row (status/storageKey/sha256), append `STATUS_CHANGED` and
`CERTIFICATE_ISSUED`, and insert the Certificate row.  `t` is the single
clock instant used for the commit's clock readings.  A missing original
file makes the transaction fail (modelled as `.error`). -/
def commitSignature (document : DocumentRow) (signer : SignerRow)
    (clientFingerprint signatureImageBase64 ip ua : String) (t : Nat)
    (st : St) : Except String (CommitResult × St) :=
  let timestampISO := isoString t
  let signatureHash :=
    sha256Hex (document.sha256 ++ signer.id ++ timestampISO ++ clientFingerprint)
  let shortCode := (signatureHash.take 6).toUpper
  let artefactPath := artefactPathFor document.tenantId signer.id
  let signer2 := { signer with
    status := "SIGNED", signedAt := some t,
    signatureHash := some signatureHash,
    signatureArtefactPath := some artefactPath }
  let st1 := { st with
    files := (artefactPath, stripB64Header signatureImageBase64) :: st.files,
    signers := st.signers.map (fun (s : SignerRow) => if s.id == signer.id then signer2 else s),
    auditLog := createEntry
      { tenantId := document.tenantId, actorKind := "SIGNER",
        actorId := some signer.id, entityType := "DOCUMENT",
        entityId := document.id, action := "SIGNED",
        ip := some ip, userAgent := some ua,
        payload := [("signatureHash", .str signatureHash),
                    ("shortCode", .str shortCode),
                    ("artefactPath", .str artefactPath)] } t t st.auditLog }
  let signersInDoc := st1.signers.filter (fun (s : SignerRow) => s.documentId == document.id)
  let allSigned := signersInDoc.all (fun s => s.status == "SIGNED")
  if allSigned then
    match lookupFile document.storageKey st1.files with
    | none => .error "Falha ao gerar o documento final assinado."
    | some origBytes =>
      let signedPdf := embedSignaturesBytes origBytes signersInDoc
      let signedKey := insertSignedSuffix document.storageKey
      let newSha256 := sha256Hex signedPdf
      let doc2 := { document with
        status := "SIGNED", storageKey := signedKey, sha256 := newSha256 }
      let st2 := { st1 with
        files := (signedKey, signedPdf) :: st1.files,
        documents := st1.documents.map (fun (d : DocumentRow) => if d.id == document.id then doc2 else d),
        auditLog :=
          createEntry
            { tenantId := document.tenantId, actorKind := "SYSTEM",
              actorId := none, entityType := "DOCUMENT",
              entityId := document.id, action := "CERTIFICATE_ISSUED",
              ip := none, userAgent := none, payload := [] } t t
            (createEntry
              { tenantId := document.tenantId, actorKind := "SYSTEM",
                actorId := none, entityType := "DOCUMENT",
                entityId := document.id, action := "STATUS_CHANGED",
                ip := none, userAgent := none,
                payload := [("newStatus", .str "SIGNED")] } t t st1.auditLog),
        certificates := st1.certificates ++
          [{ documentId := document.id,
             storageKey := "certificates/" ++ document.id ++ ".pdf",
             sha256 := sha256Hex "mock_content_certificado", issuedAt := t }] }
      .ok ({ shortCode := shortCode, signatureHash := signatureHash,
             isComplete := true }, st2)
  else
    .ok ({ shortCode := shortCode, signatureHash := signatureHash,
           isComplete := false }, st1)

/-- Modelled from the spec: the signer-facing route guard.  The files
`signer.route.js` / `signer.controller.js` referenced by
src/routes/index.js are not part of the snapshot; §4.4 of the spec says
every signer event is authenticated by the share token and that the token
"must point to a Signer whose parent Document is in
{READY, PARTIALLY_SIGNED}. Any mismatch yields ErrInvalidToken." -/
def signerGuardOk (document : DocumentRow) : Bool :=
  document.status == "READY" || document.status == "PARTIALLY_SIGNED"

/-- The signer commit operation as reachable over HTTP: the (spec-modelled)
token guard followed by the `commitSignature` service call. -/
def commitOperation (document : DocumentRow) (signer : SignerRow)
    (clientFingerprint signatureImageBase64 ip ua : String) (t : Nat)
    (st : St) : Except String (CommitResult × St) :=
  if signerGuardOk document then
    commitSignature document signer clientFingerprint signatureImageBase64 ip ua t st
  else .error "ErrInvalidToken"

/-! ## Helper lemmas for the chain-linking invariant -/

def timeLt (a b : AuditEntry) : Prop := a.createdAt < b.createdAt

instance : IsTrans AuditEntry timeLt := ⟨fun _ _ _ h1 h2 => Nat.lt_trans h1 h2⟩

def lastOf (p : AuditEntry) : List AuditEntry → AuditEntry
  | [] => p
  | q :: rest => lastOf q rest

theorem getLast?_eq_lastOf (p : AuditEntry) (l : List AuditEntry) :
    (p :: l).getLast? = some (lastOf p l) := by
  induction l generalizing p with
  | nil => rfl
  | cons q rest ih => simpa [lastOf] using ih q

theorem lastOf_mem (p : AuditEntry) (l : List AuditEntry) : lastOf p l ∈ p :: l := by
  induction l generalizing p with
  | nil => simp [lastOf]
  | cons q rest ih =>
    have := ih q
    simp only [lastOf]
    rcases List.mem_cons.mp this with h | h
    · simp [h]
    · simp [List.mem_cons, h]

theorem mem_of_getLast?_eq (l : List AuditEntry) (x : AuditEntry)
    (h : l.getLast? = some x) : x ∈ l := by
  cases l with
  | nil => simp at h
  | cons p rest =>
    rw [getLast?_eq_lastOf] at h
    obtain rfl : lastOf p rest = x := Option.some.inj h
    exact lastOf_mem p rest

theorem chain'_timeLt_getLast (l : List AuditEntry) (p x : AuditEntry)
    (h : List.Chain' timeLt (p :: l)) (hx : l.getLast? = some x) :
    p.createdAt < x.createdAt := by
  induction l generalizing p with
  | nil => simp at hx
  | cons q rest ih =>
    have hpq : timeLt p q := (List.chain'_cons.mp h).1
    have h2 : List.Chain' timeLt (q :: rest) := (List.chain'_cons.mp h).2
    cases rest with
    | nil =>
      simp at hx
      subst hx
      exact hpq
    | cons r rest2 =>
      have hx2 : (r :: rest2).getLast? = some x := by simpa using hx
      exact Nat.lt_trans hpq (ih q h2 hx2)

theorem lastByCreatedAt_eq_getLast (l : List AuditEntry)
    (h : List.Chain' timeLt l) : lastByCreatedAt l = l.getLast? := by
  induction l with
  | nil => rfl
  | cons e rest ih =>
    have hrest : List.Chain' timeLt rest := h.tail
    cases rest with
    | nil => rfl
    | cons f rest2 =>
      have hlast := getLast?_eq_lastOf f rest2
      have hlt : e.createdAt < (lastOf f rest2).createdAt :=
        chain'_timeLt_getLast (f :: rest2) e (lastOf f rest2) h hlast
      have hval : lastByCreatedAt (f :: rest2) = some (lastOf f rest2) := by
        rw [ih hrest, hlast]
      have hstep : lastByCreatedAt (e :: f :: rest2) =
          match lastByCreatedAt (f :: rest2) with
          | none => some e
          | some m => if m.createdAt < e.createdAt then some e else some m := rfl
      rw [hstep, hval]
      simp only
      rw [if_neg (by omega)]
      rw [List.getLast?_cons_cons, hlast]

theorem linked_append (l : List AuditEntry) (p e : AuditEntry)
    (h : linked p l = true) (he : e.prevEventHash = (lastOf p l).eventHash) :
    linked p (l ++ [e]) = true := by
  induction l generalizing p with
  | nil =>
    simp only [List.nil_append, linked, Bool.and_true]
    simpa [lastOf] using he
  | cons q rest ih =>
    simp only [linked, Bool.and_eq_true] at h
    simp only [List.cons_append, linked, Bool.and_eq_true]
    exact ⟨h.1, ih q h.2 he⟩

theorem chainOk_append (eid : String) (l : List AuditEntry) (e : AuditEntry)
    (h : chainOk eid l = true)
    (he : e.prevEventHash =
      (match l.getLast? with
       | some q => q.eventHash
       | none => genesisHash eid)) :
    chainOk eid (l ++ [e]) = true := by
  cases l with
  | nil =>
    simp only [List.getLast?_nil] at he
    simp [chainOk, linked, he]
  | cons f rest =>
    simp only [chainOk, Bool.and_eq_true] at h
    rw [getLast?_eq_lastOf] at he
    simp only [List.cons_append, chainOk, Bool.and_eq_true]
    exact ⟨h.1, linked_append rest f e h.2 he⟩

/-- The chain-shape invariant over the whole audit store. -/
def chainInv (st : List AuditEntry) : Prop :=
  ∀ eid, chainOk eid (chainOf eid st) = true

theorem chainOf_append (eid : String) (st l2 : List AuditEntry) :
    chainOf eid (st ++ l2) = chainOf eid st ++ chainOf eid l2 := by
  simp [chainOf, List.filter_append]

theorem createEntry_chainInv (d : LogData) (t1 t2 : Nat) (st : List AuditEntry)
    (hinv : chainInv st) (hasc : List.Chain' timeLt st) :
    chainInv (createEntry d t1 t2 st) := by
  intro eid
  rw [createEntry, chainOf_append]
  have hascChain : List.Chain' timeLt (chainOf eid st) :=
    List.Chain'.sublist hasc (List.filter_sublist st)
  by_cases heq : d.entityId = eid
  · have hone : chainOf eid [newAuditRow d t1 t2 st] = [newAuditRow d t1 t2 st] := by
      simp [chainOf, newAuditRow, heq]
    rw [hone]
    refine chainOk_append eid (chainOf eid st) (newAuditRow d t1 t2 st) (hinv eid) ?_
    show prevHashOf d.entityId st = _
    rw [prevHashOf, heq, lastByCreatedAt_eq_getLast (chainOf eid st) hascChain]
  · have hone : chainOf eid [newAuditRow d t1 t2 st] = [] := by
      simp [chainOf, newAuditRow, heq]
    rw [hone, List.append_nil]
    exact hinv eid

theorem createEntry_timeChain (d : LogData) (t1 t2 : Nat) (st : List AuditEntry)
    (hasc : List.Chain' timeLt st) (hbound : ∀ e ∈ st, e.createdAt < t2) :
    List.Chain' timeLt (createEntry d t1 t2 st) := by
  rw [createEntry, List.chain'_append]
  refine ⟨hasc, List.chain'_singleton _, ?_⟩
  intro x hx y hy
  have hxmem : x ∈ st := mem_of_getLast?_eq st x hx
  have : newAuditRow d t1 t2 st = y := by simpa using hy
  subst this
  exact hbound x hxmem

theorem foldl_chainInv (trace : List (LogData × Nat × Nat)) :
    ∀ (st : List AuditEntry), chainInv st → List.Chain' timeLt st →
    (∀ e ∈ st, ∀ x ∈ trace, e.createdAt < x.2.2) →
    List.Pairwise (· < ·) (trace.map (fun x => x.2.2)) →
    chainInv (trace.foldl (fun s x => createEntry x.1 x.2.1 x.2.2 s) st) := by
  induction trace with
  | nil => intro st hinv _ _ _; exact hinv
  | cons hd rest ih =>
    intro st hinv hasc hbound hmono
    simp only [List.map_cons, List.pairwise_cons] at hmono
    have hbhd : ∀ e ∈ st, e.createdAt < hd.2.2 := by
      intro e he
      exact hbound e he hd (List.mem_cons_self hd rest)
    simp only [List.foldl_cons]
    refine ih (createEntry hd.1 hd.2.1 hd.2.2 st)
      (createEntry_chainInv hd.1 hd.2.1 hd.2.2 st hinv hasc)
      (createEntry_timeChain hd.1 hd.2.1 hd.2.2 st hasc hbhd) ?_ hmono.2
    intro e he x hx
    rw [createEntry] at he
    rcases List.mem_append.mp he with h | h
    · exact hbound e h x (List.mem_cons_of_mem hd hx)
    · have : e = newAuditRow hd.1 hd.2.1 hd.2.2 st := by simpa using h
      subst this
      show hd.2.2 < x.2.2
      exact hmono.1 x.2.2 (List.mem_map_of_mem (fun x => x.2.2) hx)

theorem chainInv_nil : chainInv [] := by
  intro eid
  rfl

/-! ## Shared concrete fixtures -/

def dUp : LogData :=
  { tenantId := "t1", actorKind := "USER", actorId := some "u1",
    entityType := "DOCUMENT", entityId := "d1", action := "STORAGE_UPLOADED",
    ip := some "SYSTEM", userAgent := some "SYSTEM",
    payload := [("fileName", .str "contract.pdf"), ("sha256", .str (sha256Hex "orig"))] }

def dInv : LogData :=
  { tenantId := "t1", actorKind := "USER", actorId := some "u1",
    entityType := "SIGNER", entityId := "s1", action := "INVITED",
    ip := some "SYSTEM", userAgent := some "SYSTEM",
    payload := [("documentId", .str "d1"), ("recipient", .str "ana@example.com")] }

def dView : LogData :=
  { tenantId := "t1", actorKind := "SIGNER", actorId := some "s1",
    entityType := "DOCUMENT", entityId := "d1", action := "VIEWED",
    ip := some "9.9.9.9", userAgent := some "UA", payload := [] }

/-- C2: after every sequence of `createEntry` appends (with the monotone
row clock the database ordering relies on), every per-`entityId` chain is
genesis-anchored and forward-linked: the first entry's `prevEventHash` is
SHA-256 of `genesis_block_` ++ entityId, and each later entry's
`prevEventHash` is its predecessor's `eventHash`. -/
theorem C2_createEntry_chain_links (trace : List (LogData × Nat × Nat))
    (hmono : List.Pairwise (· < ·) (trace.map (fun x => x.2.2)))
    (eid : String) :
    chainOk eid (chainOf eid (appendTrace trace)) = true := by
  refine foldl_chainInv trace [] chainInv_nil (List.chain'_nil) ?_ hmono eid
  intro e he
  simp at he

set_option maxRecDepth 8000 in
/-- Witness for C2 on a concrete three-append trace. -/
theorem C2_createEntry_chain_links_witness :
    List.Pairwise (· < ·) ([(dUp, 1, 1), (dInv, 2, 2), (dView, 3, 3)].map
      (fun x => x.2.2)) ∧
    chainOk "s1" (chainOf "s1"
      (appendTrace [(dUp, 1, 1), (dInv, 2, 2), (dView, 3, 3)])) = true :=
  ⟨by decide, C2_createEntry_chain_links
      [(dUp, 1, 1), (dInv, 2, 2), (dView, 3, 3)] (by decide) "s1"⟩

set_option maxRecDepth 8000 in
/-- C1: the claim requires that the ISO timestamp hashed into `eventHash`
be recorded as the row's `createdAt`, so the verifier reproduces the hash.
The code hashes `new Date().toISOString()` but lets Sequelize stamp a
second, independent clock reading as `createdAt`.  At the failing input
(the two readings are 1000ms and 1001ms) the single appended row fails
the verifier's recomputation; with coinciding readings it would pass. -/
theorem C1_hash_timestamp_not_recorded :
    (appendTrace [(dUp, 1000, 1001)]).length = 1 ∧
    (appendTrace [(dUp, 1000, 1001)]).all
      (fun e => recomputeHash e != e.eventHash) = true ∧
    (appendTrace [(dUp, 1000, 1000)]).all
      (fun e => recomputeHash e == e.eventHash) = true := by decide

def linkStep (p e : AuditEntry) : Prop := e.prevEventHash = p.eventHash

theorem verifyGo_valid_iff (total : Nat) (l : List AuditEntry) :
    ∀ (p? : Option AuditEntry),
    (verifyGo total p? l = .valid total ↔
      List.Chain' linkStep (p?.toList ++ l) ∧
      ∀ e ∈ l, recomputeHash e = e.eventHash) := by
  induction l with
  | nil =>
    intro p?
    cases p? <;> simp [verifyGo]
  | cons e rest ih =>
    intro p?
    cases p? with
    | none =>
      by_cases hre : recomputeHash e = e.eventHash
      · have hstep : verifyGo total none (e :: rest) = verifyGo total (some e) rest := by
          simp [verifyGo, hre]
        rw [hstep, ih (some e)]
        simp [List.chain'_cons', hre]
      · have hstep : verifyGo total none (e :: rest) =
            .broken e.id "Conteúdo Alterado (Hash Mismatch)" := by
          simp [verifyGo, hre]
        rw [hstep]
        simp [hre]
    | some p =>
      by_cases hlink : e.prevEventHash = p.eventHash
      · by_cases hre : recomputeHash e = e.eventHash
        · have hstep : verifyGo total (some p) (e :: rest) = verifyGo total (some e) rest := by
            simp [verifyGo, hlink, hre]
          rw [hstep, ih (some e)]
          constructor
          · rintro ⟨hc, hall⟩
            refine ⟨?_, ?_⟩
            · simp only [Option.toList_some, List.singleton_append] at hc ⊢
              exact List.chain'_cons.mpr ⟨hlink, hc⟩
            · intro x hx
              rcases List.mem_cons.mp hx with h | h
              · subst h; exact hre
              · exact hall x h
          · rintro ⟨hc, hall⟩
            simp only [Option.toList_some, List.singleton_append] at hc ⊢
            refine ⟨(List.chain'_cons.mp hc).2, ?_⟩
            intro x hx
            exact hall x (List.mem_cons_of_mem e hx)
        · have hstep : verifyGo total (some p) (e :: rest) =
              .broken e.id "Conteúdo Alterado (Hash Mismatch)" := by
            simp [verifyGo, hlink, hre]
          rw [hstep]
          constructor
          · intro h; cases h
          · rintro ⟨_, hall⟩
            exact absurd (hall e (List.mem_cons_self e rest)) hre
      · have hstep : verifyGo total (some p) (e :: rest) =
            .broken e.id "Link Quebrado (Hash Anterior incorreto)" := by
          simp [verifyGo, hlink]
        rw [hstep]
        constructor
        · intro h; cases h
        · rintro ⟨hc, _⟩
          simp only [Option.toList_some, List.singleton_append] at hc
          exact absurd (List.chain'_cons.mp hc).1 hlink

theorem verifyGo_broken (total : Nat) (l : List AuditEntry) :
    ∀ (p? : Option AuditEntry) (i : Nat) (r : String),
    verifyGo total p? l = .broken i r →
    (r = "Link Quebrado (Hash Anterior incorreto)" ∨
     r = "Conteúdo Alterado (Hash Mismatch)") ∧
    ∃ e ∈ l, e.id = i := by
  induction l with
  | nil =>
    intro p? i r h
    cases p? <;> simp [verifyGo] at h
  | cons e rest ih =>
    intro p? i r h
    cases p? with
    | none =>
      by_cases hre : recomputeHash e = e.eventHash
      · have hstep : verifyGo total none (e :: rest) = verifyGo total (some e) rest := by
          simp [verifyGo, hre]
        rw [hstep] at h
        obtain ⟨hr, x, hx, hid⟩ := ih (some e) i r h
        exact ⟨hr, x, List.mem_cons_of_mem e hx, hid⟩
      · have hstep : verifyGo total none (e :: rest) =
            .broken e.id "Conteúdo Alterado (Hash Mismatch)" := by
          simp [verifyGo, hre]
        rw [hstep] at h
        cases h
        exact ⟨Or.inr rfl, e, List.mem_cons_self e rest, rfl⟩
    | some p =>
      by_cases hlink : e.prevEventHash = p.eventHash
      · by_cases hre : recomputeHash e = e.eventHash
        · have hstep : verifyGo total (some p) (e :: rest) = verifyGo total (some e) rest := by
            simp [verifyGo, hlink, hre]
          rw [hstep] at h
          obtain ⟨hr, x, hx, hid⟩ := ih (some e) i r h
          exact ⟨hr, x, List.mem_cons_of_mem e hx, hid⟩
        · have hstep : verifyGo total (some p) (e :: rest) =
              .broken e.id "Conteúdo Alterado (Hash Mismatch)" := by
            simp [verifyGo, hlink, hre]
          rw [hstep] at h
          cases h
          exact ⟨Or.inr rfl, e, List.mem_cons_self e rest, rfl⟩
      · have hstep : verifyGo total (some p) (e :: rest) =
            .broken e.id "Link Quebrado (Hash Anterior incorreto)" := by
          simp [verifyGo, hlink]
        rw [hstep] at h
        cases h
        exact ⟨Or.inl rfl, e, List.mem_cons_self e rest, rfl⟩

/-- C3 (amended): composite chain verification fetches the document's
audit rows and its signers' audit rows as one list ordered by `createdAt`
and verifies it as a single merged sequence: each row after the first must
link to the immediately preceding fetched row regardless of which entity
chain it belongs to, and each row's `eventHash` must equal the
recomputation from its stored fields; the first fetched row's
`prevEventHash` is not compared against any genesis value; at the first
discrepancy the result is `{isValid: false, brokenEventId, reason}` with
reason `Link Quebrado (Hash Anterior incorreto)` or
`Conteúdo Alterado (Hash Mismatch)`, otherwise `{isValid: true, count}`. -/
theorem C3_merged_chain_verifier (docId : String) (st : St) :
    (verifyAuditLogChain docId st = .valid (fetchDocLogs docId st).length ↔
      List.Chain' linkStep (fetchDocLogs docId st) ∧
      ∀ e ∈ fetchDocLogs docId st, recomputeHash e = e.eventHash) ∧
    (∀ i r, verifyAuditLogChain docId st = .broken i r →
      (r = "Link Quebrado (Hash Anterior incorreto)" ∨
       r = "Conteúdo Alterado (Hash Mismatch)") ∧
      ∃ e ∈ fetchDocLogs docId st, e.id = i) := by
  unfold verifyAuditLogChain verifyChainList
  generalize fetchDocLogs docId st = logs
  by_cases hemp : logs.isEmpty
  · have : logs = [] := List.isEmpty_iff.mp hemp
    subst this
    simp
  · rw [if_neg hemp]
    constructor
    · simpa using verifyGo_valid_iff logs.length logs none
    · intro i r h
      exact verifyGo_broken logs.length logs none i r h

def docD1 : DocumentRow :=
  { id := "d1", tenantId := "t1", ownerId := "u1", title := "Contract",
    storageKey := "uploads/t1/d1.pdf", sha256 := sha256Hex "orig",
    status := "READY", createdAt := 0 }

def signerS1 : SignerRow :=
  { id := "s1", documentId := "d1", name := "Ana", email := "ana@example.com",
    phoneWhatsE164 := none, authChannels := ["EMAIL"], status := "VIEWED",
    signedAt := none, signatureHash := none, signatureArtefactPath := none,
    signaturePositionX := none, signaturePositionY := none,
    signaturePositionPage := none }

def stC3 : St :=
  { users := [], documents := [docD1], signers := [signerS1],
    auditLog := appendTrace [(dUp, 1, 1), (dInv, 2, 2), (dView, 3, 3)],
    certificates := [], otpCodes := [], files := [] }

def fBase : AuditEntry :=
  { id := 0, tenantId := "t1", actorKind := "USER", actorId := some "u1",
    entityType := "DOCUMENT", entityId := "d2", action := "STORAGE_UPLOADED",
    ip := some "SYSTEM", userAgent := some "SYSTEM", payloadJson := [],
    prevEventHash := "forged_prev_hash", eventHash := "", createdAt := 5 }

def fEntry : AuditEntry := { fBase with eventHash := recomputeHash fBase }

def stForged : St :=
  { users := [], documents := [], signers := [], auditLog := [fEntry],
    certificates := [], otpCodes := [], files := [] }

set_option maxRecDepth 8000 in
/-- C3 counterexample: an honest state (both per-entity chains are
genesis-anchored, forward-linked and hash-consistent, so each sub-chain
verifies independently) on which the composite verifier nevertheless
reports a broken link with a reason outside `{link_mismatch,
hash_mismatch}` — because it links the document's rows against the
interleaved signer row; and a single forged, self-consistent row whose
`prevEventHash` is not the genesis hash which the verifier accepts,
because no genesis check is performed. -/
theorem C3_counterexample :
    chainOk "d1" (chainOf "d1" stC3.auditLog) = true ∧
    chainOk "s1" (chainOf "s1" stC3.auditLog) = true ∧
    verifyChainList (chainOf "d1" stC3.auditLog) = .valid 2 ∧
    verifyChainList (chainOf "s1" stC3.auditLog) = .valid 1 ∧
    verifyAuditLogChain "d1" stC3 =
      .broken 1 "Link Quebrado (Hash Anterior incorreto)" ∧
    verifyAuditLogChain "d2" stForged = .valid 1 ∧
    fEntry.prevEventHash ≠ genesisHash "d2" := by decide

set_option maxRecDepth 8000 in
/-- Witness for the amended C3 theorem at a concrete broken input. -/
theorem C3_merged_chain_verifier_witness :
    ("Link Quebrado (Hash Anterior incorreto)" =
        "Link Quebrado (Hash Anterior incorreto)" ∨
     "Link Quebrado (Hash Anterior incorreto)" =
        "Conteúdo Alterado (Hash Mismatch)") ∧
    ∃ e ∈ fetchDocLogs "d1" stC3, e.id = 1 :=
  (C3_merged_chain_verifier "d1" stC3).2 1
    "Link Quebrado (Hash Anterior incorreto)" (by decide)

def dSignA : LogData :=
  { tenantId := "t1", actorKind := "SIGNER", actorId := some "sa",
    entityType := "DOCUMENT", entityId := "dc4", action := "SIGNED",
    ip := some "1.1.1.1", userAgent := some "UA",
    payload := [("signatureHash", .str (sha256Hex "first")),
                ("shortCode", .str "SHA256"),
                ("artefactPath", .str (artefactPathFor "t1" "sa"))] }

def docC4 : DocumentRow :=
  { id := "dc4", tenantId := "t1", ownerId := "u1", title := "Two signers",
    storageKey := "uploads/t1/dc4.pdf", sha256 := sha256Hex "origC4",
    status := "PARTIALLY_SIGNED", createdAt := 0 }

def signerA : SignerRow :=
  { id := "sa", documentId := "dc4", name := "A", email := "a@x.com",
    phoneWhatsE164 := none, authChannels := ["EMAIL"], status := "SIGNED",
    signedAt := some 10, signatureHash := some (sha256Hex "first"),
    signatureArtefactPath := some (artefactPathFor "t1" "sa"),
    signaturePositionX := none, signaturePositionY := none,
    signaturePositionPage := none }

def signerB : SignerRow :=
  { id := "sb", documentId := "dc4", name := "B", email := "b@x.com",
    phoneWhatsE164 := none, authChannels := ["EMAIL"], status := "VIEWED",
    signedAt := none, signatureHash := none, signatureArtefactPath := none,
    signaturePositionX := none, signaturePositionY := none,
    signaturePositionPage := none }

def stC4 : St :=
  { users := [], documents := [docC4], signers := [signerA, signerB],
    auditLog := appendTrace [(dSignA, 10, 10)], certificates := [],
    otpCodes := [], files := [("uploads/t1/dc4.pdf", "origC4")] }

set_option maxRecDepth 8000 in
/-- C4: the claim demands that a second `commit` on an already SIGNED
signer fail with `ErrAlreadyTerminal` and leave the chain length
unchanged.  Neither `commitSignature` nor the (spec-modelled) share-token
guard inspects the signer's status: on a PARTIALLY_SIGNED document the
guard passes, the already-SIGNED signer is re-signed, and a second
`SIGNED` audit entry is appended to the chain. -/
theorem C4_second_commit_unguarded :
    signerGuardOk docC4 = true ∧
    signerA.status = "SIGNED" ∧
    (match commitOperation docC4 signerA "fp2" "png2" "2.2.2.2" "UA2" 20 stC4 with
     | .ok (r, st2) =>
        (st2.auditLog.map (fun e => e.action) ==
          stC4.auditLog.map (fun e => e.action) ++ ["SIGNED"]) &&
        (st2.auditLog.length == stC4.auditLog.length + 1) &&
        (r.isComplete == false)
     | .error _ => false) = true := by decide

def signerC5 : SignerRow :=
  { id := "s5", documentId := "d5", name := "Ana",
    email := "ana@example.com", phoneWhatsE164 := some "+5511999999999",
    authChannels := ["EMAIL", "WHATSAPP"], status := "VIEWED",
    signedAt := none, signatureHash := none, signatureArtefactPath := none,
    signaturePositionX := none, signaturePositionY := none,
    signaturePositionPage := none }

def otpStoreC5 : List OtpRow := startOtpVerification signerC5 "123456" 0 []

set_option maxRecDepth 8000 in
/-- C5: the claim demands at-most-one successful verification per code for
every non-empty channel set.  `startOtpVerification` stores one row per
channel with the same bcrypt hash, while a successful `verifyOtp` destroys
only the single most recent row: with channels `{EMAIL, WHATSAPP}` the
same code verifies successfully a second time against the remaining row. -/
theorem C5_otp_replay_second_channel :
    otpStoreC5.length = 2 ∧
    (match verifyOtp "t1" signerC5 "123456" "ip" "ua" 1 1 1 otpStoreC5 [] with
     | .ok (store1, audit1) =>
        (store1.length == 1) &&
        (match verifyOtp "t1" signerC5 "123456" "ip" "ua" 2 2 2 store1 audit1 with
         | .ok _ => true
         | .error _ => false)
     | .error _ => false) = true := by decide

def userC6 : UserRow :=
  { id := "u1", tenantId := "t1", name := "Admin", email := "admin@x.com" }

def docC6 : DocumentRow :=
  { id := "d6", tenantId := "t1", ownerId := "u1", title := "Done",
    storageKey := "uploads/t1/d6-signed.pdf", sha256 := sha256Hex "final6",
    status := "SIGNED", createdAt := 0 }

def stC6 : St :=
  { users := [userC6], documents := [docC6], signers := [], auditLog := [],
    certificates := [], otpCodes := [], files := [] }

set_option maxRecDepth 8000 in
/-- C6: the claim demands that `cancel`/`expire` on an already terminal
document fail with `ErrAlreadyTerminal` and leave the row unchanged.
`changeDocumentStatus` has no terminal-status check: applied to a SIGNED
document it overwrites the status with CANCELLED and appends a
`STATUS_CHANGED` audit entry. -/
theorem C6_terminal_document_still_transitions :
    docC6.status = "SIGNED" ∧
    (match changeDocumentStatus "d6" "CANCELLED" userC6 30 31 stC6 with
     | .ok (doc2, st2) =>
        (doc2.status == "CANCELLED") &&
        (st2.documents.map (fun d => d.status) == ["CANCELLED"]) &&
        (st2.auditLog.map (fun e => e.action) == ["STATUS_CHANGED"])
     | .error _ => false) = true := by decide

/-- C7: `commitSignature` computes `signatureHash` as the (hex) SHA-256 of
`document.sha256 ‖ signer.id ‖ timestamp_iso ‖ clientFingerprint` and
`shortCode` as the uppercase of the first six characters of
`signatureHash`; whenever the commit succeeds, both values are returned in
the result. -/
theorem C7_signature_hash_and_short_code (document : DocumentRow)
    (signer : SignerRow) (fp png ip ua : String) (t : Nat) (st : St)
    (r : CommitResult) (st2 : St)
    (h : commitSignature document signer fp png ip ua t st = .ok (r, st2)) :
    r.signatureHash =
      sha256Hex (document.sha256 ++ signer.id ++ isoString t ++ fp) ∧
    r.shortCode = (r.signatureHash.take 6).toUpper := by
  unfold commitSignature at h
  simp only at h
  split at h
  · split at h
    · exact absurd h (by simp)
    · have hinj := Except.ok.inj h
      injection hinj with hr hst
      subst hr
      exact ⟨rfl, rfl⟩
  · have hinj := Except.ok.inj h
    injection hinj with hr hst
    subst hr
    exact ⟨rfl, rfl⟩

def resC7 : Except String (CommitResult × St) :=
  commitSignature docC4 signerA "fp2" "png2" "2.2.2.2" "UA2" 20 stC4

def rC7 : CommitResult :=
  match resC7 with
  | .ok (r, _) => r
  | .error _ => { shortCode := "", signatureHash := "", isComplete := false }

def stC7post : St :=
  match resC7 with
  | .ok (_, s) => s
  | .error _ => stC4

set_option maxRecDepth 8000 in
/-- Witness for C7 at a concrete successful commit. -/
theorem C7_signature_hash_and_short_code_witness :
    rC7.signatureHash =
      sha256Hex (docC4.sha256 ++ signerA.id ++ isoString 20 ++ "fp2") ∧
    rC7.shortCode = (rC7.signatureHash.take 6).toUpper :=
  C7_signature_hash_and_short_code docC4 signerA "fp2" "png2" "2.2.2.2"
    "UA2" 20 stC4 rC7 stC7post (by rfl)

/-- C8: the validator hashes the uploaded bytes and looks a `Document` up
by `sha256`: when no row matches it returns `{valid: false}`, when a row
matches it returns `{valid: true, document: {title, status, createdAt,
ownerName, signers}}`, and in both cases the state is left unchanged. -/
theorem C8_validator_pure_lookup (b : String) (st : St) :
    (validatePdfIntegrity b st).2 = st ∧
    ((validatePdfIntegrity b st).1 = ValidationResult.invalid ↔
      ∀ d ∈ st.documents, d.sha256 ≠ sha256Hex b) ∧
    (∀ d, st.documents.find? (fun x => x.sha256 == sha256Hex b) = some d →
      (validatePdfIntegrity b st).1 = ValidationResult.valid (docSummary d st)) := by
  unfold validatePdfIntegrity
  cases hfind : st.documents.find? (fun x => x.sha256 == sha256Hex b) with
  | none =>
    simp only [hfind]
    refine ⟨trivial, ?_, ?_⟩
    · constructor
      · intro _ d hd
        have := List.find?_eq_none.mp hfind d hd
        simpa using this
      · intro _
        trivial
    · intro d hd
      simp at hd
  | some d0 =>
    simp only [hfind]
    refine ⟨trivial, ?_, ?_⟩
    · constructor
      · intro hinv
        exact absurd hinv (by simp)
      · intro hall
        have hmem := List.mem_of_find?_eq_some hfind
        exact ((hall d0 hmem) (by simpa using List.find?_some hfind)).elim
    · intro d hd
      obtain rfl : d0 = d := Option.some.inj hd
      rfl

def stC8 : St :=
  { users := [], documents := [docD1], signers := [signerS1],
    auditLog := [], certificates := [], otpCodes := [], files := [] }

set_option maxRecDepth 8000 in
/-- Witness for C8: the validator finds the document whose `sha256`
matches the uploaded bytes and returns its summary. -/
theorem C8_validator_pure_lookup_witness :
    (validatePdfIntegrity "orig" stC8).1 =
      ValidationResult.valid (docSummary docD1 stC8) :=
  (C8_validator_pure_lookup "orig" stC8).2.2 docD1 (by decide)

theorem enumFrom_get? {α : Type} (l : List α) : ∀ (n i : Nat),
    (List.enumFrom n l).get? i = (l.get? i).map (fun a => (n + i, a)) := by
  induction l with
  | nil => intro n i; simp [List.enumFrom]
  | cons a t ih =>
    intro n i
    cases i with
    | zero => simp [List.enumFrom]
    | succ j =>
      show (List.enumFrom (n + 1) t).get? j = _
      rw [ih (n + 1) j]
      have hnj : n + 1 + j = n + (j + 1) := by omega
      rw [hnj]
      rfl

theorem snd_mem_of_mem_enumFrom {α : Type} (l : List α) :
    ∀ (n : Nat) (p : Nat × α), p ∈ List.enumFrom n l → p.2 ∈ l := by
  induction l with
  | nil => intro n p h; simp [List.enumFrom] at h
  | cons a t ih =>
    intro n p h
    simp only [List.enumFrom, List.mem_cons] at h
    rcases h with h | h
    · subst h; simp
    · exact List.mem_cons_of_mem a (ih (n + 1) p h)

/-- C9 (amended): every SIGNED signer with an artefact path whose file is
readable gets exactly the stamp the code computes — at `(x, y, 180, 65)`
on 0-indexed page `signaturePositionPage - 1` when all three position
fields are truthy and the page exists, and otherwise stacked on the last
page at `((pageWidth-180)/2, 30 + 75*i)` where `i` is the signer's index
in the whole filtered signed list (not the count of previous fallback
stamps); a signer whose artefact is unreadable contributes no stamp, and
the stamps of the other signers do not depend on it. -/
theorem C9_embed_stamp_rules (numPages : Nat) (pageWidth : ℚ)
    (readable : String → Bool) (signers : List SignerRow) :
    (∀ i s, (signedWithArtefact signers).get? i = some s →
      readable (s.signatureArtefactPath.getD "") = true →
      (((truthyQ s.signaturePositionX && truthyQ s.signaturePositionY &&
           truthyN s.signaturePositionPage) = true →
         s.signaturePositionPage.getD 0 - 1 < numPages →
         (⟨s.signaturePositionPage.getD 0 - 1, s.signaturePositionX.getD 0,
           s.signaturePositionY.getD 0, 180, 65⟩ : Stamp) ∈
             embedSignatures numPages pageWidth readable signers) ∧
       ((truthyQ s.signaturePositionX && truthyQ s.signaturePositionY &&
           truthyN s.signaturePositionPage) = false →
         (⟨numPages - 1, (pageWidth - 180) / 2, 30 + (i : ℚ) * 75, 180, 65⟩ :
             Stamp) ∈ embedSignatures numPages pageWidth readable signers))) ∧
    ((∀ s ∈ signedWithArtefact signers,
        readable (s.signatureArtefactPath.getD "") = false) →
      embedSignatures numPages pageWidth readable signers = []) := by
  constructor
  · intro i s hget hread
    have hmem : (i, s) ∈ (signedWithArtefact signers).enum := by
      apply List.get?_mem (n := i)
      show (List.enumFrom 0 (signedWithArtefact signers)).get? i = _
      rw [enumFrom_get? (signedWithArtefact signers) 0 i, hget]
      simp
    constructor
    · intro hcoord hpage
      apply List.mem_filterMap.mpr
      refine ⟨(i, s), hmem, ?_⟩
      simp [stampFor, hread, hcoord, hpage]
    · intro hcoord
      apply List.mem_filterMap.mpr
      refine ⟨(i, s), hmem, ?_⟩
      simp [stampFor, hread, hcoord]
  · intro hall
    apply List.filterMap_eq_nil_iff.mpr
    intro x hx
    have hs : x.2 ∈ signedWithArtefact signers :=
      snd_mem_of_mem_enumFrom (signedWithArtefact signers) 0 x hx
    simp [stampFor, hall x.2 hs]

def signerCoord : SignerRow :=
  { id := "sc", documentId := "d9", name := "C", email := "c@x.com",
    phoneWhatsE164 := none, authChannels := ["EMAIL"], status := "SIGNED",
    signedAt := some 1, signatureHash := some "h1",
    signatureArtefactPath := some "uploads/t1/signatures/sc.png",
    signaturePositionX := some 10, signaturePositionY := some 20,
    signaturePositionPage := some 1 }

def signerNoCoord : SignerRow :=
  { id := "sn", documentId := "d9", name := "N", email := "n@x.com",
    phoneWhatsE164 := none, authChannels := ["EMAIL"], status := "SIGNED",
    signedAt := some 2, signatureHash := some "h2",
    signatureArtefactPath := some "uploads/t1/signatures/sn.png",
    signaturePositionX := none, signaturePositionY := none,
    signaturePositionPage := none }

/-- C9 counterexample: with one signer stamped at recorded coordinates and
a second without coordinates, the second stamp is placed at
`y = 30 + 1*75 = 105`, not at the claimed starting height `y = 30`: the
stack offset is the signer's index in the whole signed list, not the count
of previous stacked stamps. -/
theorem C9_counterexample :
    embedSignatures 1 600 (fun _ => true) [signerCoord, signerNoCoord] =
      [⟨1 - 1, 10, 20, 180, 65⟩,
       ⟨1 - 1, (600 - 180) / 2, 30 + ((1 : Nat) : ℚ) * 75, 180, 65⟩] ∧
    30 + ((1 : Nat) : ℚ) * 75 ≠ 30 := by
  refine ⟨rfl, ?_⟩
  norm_num

/-- Witness for C9: the fallback stamp of the second signer, and the empty
stamp list when every artefact is unreadable. -/
theorem C9_embed_stamp_rules_witness :
    (⟨1 - 1, (600 - 180) / 2, 30 + ((1 : Nat) : ℚ) * 75, 180, 65⟩ : Stamp) ∈
      embedSignatures 1 600 (fun _ => true) [signerCoord, signerNoCoord] ∧
    embedSignatures 1 600 (fun _ => false) [signerCoord] = [] :=
  ⟨((C9_embed_stamp_rules 1 600 (fun _ => true)
      [signerCoord, signerNoCoord]).1 1 signerNoCoord (by decide)
      (by decide)).2 (by decide),
   (C9_embed_stamp_rules 1 600 (fun _ => false) [signerCoord]).2 (by decide)⟩

theorem lookupFile_cons_self (k v : String) (fs : List (String × String)) :
    lookupFile k ((k, v) :: fs) = some v := by
  simp [lookupFile]

theorem lookupFile_cons_ne (k k1 v : String) (fs : List (String × String))
    (h : k1 ≠ k) : lookupFile k ((k1, v) :: fs) = lookupFile k fs := by
  simp [lookupFile, List.find?_cons, h]

theorem embedSignaturesBytes_ne (orig : String) (l : List SignerRow) :
    embedSignaturesBytes orig l ≠ orig := by
  intro h
  have hlen := congrArg String.length h
  have h4 : ("pdf:" : String).length = 4 := rfl
  have h1 : (":" : String).length = 1 := rfl
  simp only [embedSignaturesBytes, String.length_append, h4, h1] at hlen
  omega

def docA10 : DocumentRow :=
  { id := "dA", tenantId := "t1", ownerId := "u1", title := "A",
    storageKey := "uploads/t1/dA.pdf", sha256 := sha256Hex "origbytes",
    status := "READY", createdAt := 0 }

def docB10 : DocumentRow :=
  { id := "dB", tenantId := "t1", ownerId := "u1", title := "B",
    storageKey := "uploads/t1/dB.pdf", sha256 := sha256Hex "origbytes",
    status := "READY", createdAt := 1 }

def signerA10 : SignerRow :=
  { id := "sA1", documentId := "dA", name := "Solo", email := "solo@x.com",
    phoneWhatsE164 := none, authChannels := ["EMAIL"], status := "VIEWED",
    signedAt := none, signatureHash := none, signatureArtefactPath := none,
    signaturePositionX := none, signaturePositionY := none,
    signaturePositionPage := none }

def stC10 : St :=
  { users := [], documents := [docA10, docB10], signers := [signerA10],
    auditLog := [], certificates := [], otpCodes := [],
    files := [("uploads/t1/dA.pdf", "origbytes"),
              ("uploads/t1/dB.pdf", "origbytes")] }

set_option maxRecDepth 8000 in
/-- C10 counterexample: two documents were created from the same uploaded
bytes (a reachable state: `createDocumentAndHandleUpload` computes the
same SHA-256 for both).  After the last signer's commit finalizes the
first one — and its finalized bytes differ from the original upload — the
validator still returns `valid` for the original bytes, which match the
untouched duplicate row, contradicting the claim that the original bytes
no longer match any Document row. -/
theorem C10_counterexample :
    (match commitSignature docA10 signerA10 "fp" "png" "ip" "ua" 7 stC10 with
     | .ok (r, st2) =>
        (r.isComplete == true) &&
        (st2.documents.map (fun d => d.sha256) ==
          [sha256Hex "pdf:origbytes:sA1", sha256Hex "origbytes"]) &&
        ("pdf:origbytes:sA1" != "origbytes") &&
        ((validatePdfIntegrity "origbytes" st2).1 != ValidationResult.invalid)
     | .error _ => false) = true := by decide

/-- A document whose `sha256` matches the uploaded bytes makes the
validator succeed. -/
theorem validate_not_invalid_of_mem (b : String) (st : St) (d : DocumentRow)
    (hd : d ∈ st.documents) (hsha : d.sha256 = sha256Hex b) :
    (validatePdfIntegrity b st).1 ≠ ValidationResult.invalid := by
  unfold validatePdfIntegrity
  cases hf : st.documents.find? (fun x => x.sha256 == sha256Hex b) with
  | none =>
    have := List.find?_eq_none.mp hf d hd
    simp [hsha] at this
  | some dd =>
    simp [hf]

/-- C10 (amended): when a commit finalizes the document, the Document row
is rebound to the stamped PDF — status SIGNED, `storageKey` gains the
`-signed` suffix, `sha256` becomes the hash of the freshly written bytes,
which differ from the original upload — so the validator rejects the
original bytes provided no other Document row carries their hash, and
accepts the finalized bytes. -/
theorem C10_finalize_rebinds_content_address (document : DocumentRow)
    (signer : SignerRow) (fp png ip ua : String) (t : Nat) (st : St)
    (origBytes : String) (r : CommitResult) (st2 : St)
    (hcommit : commitSignature document signer fp png ip ua t st = .ok (r, st2))
    (hcomplete : r.isComplete = true)
    (horig : document.sha256 = sha256Hex origBytes)
    (hfile : lookupFile document.storageKey st.files = some origBytes)
    (hkey : artefactPathFor document.tenantId signer.id ≠ document.storageKey)
    (huniq : ∀ d ∈ st.documents, d.id ≠ document.id →
      d.sha256 ≠ sha256Hex origBytes) :
    (validatePdfIntegrity origBytes st2).1 = ValidationResult.invalid ∧
    ∀ d ∈ st2.documents, d.id = document.id →
      d.status = "SIGNED" ∧
      d.storageKey = insertSignedSuffix document.storageKey ∧
      ∃ finalBytes, d.sha256 = sha256Hex finalBytes ∧ finalBytes ≠ origBytes ∧
        lookupFile d.storageKey st2.files = some finalBytes ∧
        (validatePdfIntegrity finalBytes st2).1 ≠ ValidationResult.invalid := by
  unfold commitSignature at hcommit
  simp only at hcommit
  split at hcommit
  case isFalse =>
    have hinj := Except.ok.inj hcommit
    injection hinj with hr hst
    subst hr
    exact absurd hcomplete (by simp)
  case isTrue hall =>
    split at hcommit
    case h_1 => exact absurd hcommit (by simp)
    case h_2 ob hlk =>
      rw [lookupFile_cons_ne document.storageKey
        (artefactPathFor document.tenantId signer.id) _ st.files hkey,
        hfile] at hlk
      obtain rfl : origBytes = ob := Option.some.inj hlk
      have hinj := Except.ok.inj hcommit
      injection hinj with hr hst
      subst hr
      subst hst
      constructor
      · unfold validatePdfIntegrity
        simp only
        rw [List.find?_eq_none.mpr]
        intro d hd
        obtain ⟨d0, hd0, rfl⟩ := List.mem_map.mp hd
        by_cases hb : (d0.id == document.id) = true
        · rw [if_pos hb]
          intro hsha
          simp at hsha
          exact embedSignaturesBytes_ne origBytes _ (sha256Hex_injective hsha)
        · rw [if_neg hb]
          intro hsha
          simp at hsha
          exact huniq d0 hd0 (by simpa using hb) hsha
      · intro d hd hid
        obtain ⟨d0, hd0, rfl⟩ := List.mem_map.mp hd
        by_cases hb : (d0.id == document.id) = true
        · rw [if_pos hb] at hd hid ⊢
          refine ⟨rfl, rfl, embedSignaturesBytes origBytes _, rfl,
            embedSignaturesBytes_ne origBytes _, lookupFile_cons_self _ _ _, ?_⟩
          exact validate_not_invalid_of_mem _ _ _ hd rfl
        · rw [if_neg hb] at hid
          exact absurd hid (by simpa using hb)

def stC10W : St :=
  { users := [], documents := [docA10], signers := [signerA10],
    auditLog := [], certificates := [], otpCodes := [],
    files := [("uploads/t1/dA.pdf", "origbytes")] }

def resC10 : Except String (CommitResult × St) :=
  commitSignature docA10 signerA10 "fp" "png" "ip" "ua" 7 stC10W

def rC10 : CommitResult :=
  match resC10 with
  | .ok (r, _) => r
  | .error _ => { shortCode := "", signatureHash := "", isComplete := false }

def stC10post : St :=
  match resC10 with
  | .ok (_, s) => s
  | .error _ => stC10W

set_option maxRecDepth 8000 in
/-- Witness for the amended C10 theorem: after the finalizing commit the
original bytes no longer validate. -/
theorem C10_finalize_rebinds_content_address_witness :
    (validatePdfIntegrity "origbytes" stC10post).1 = ValidationResult.invalid :=
  (C10_finalize_rebinds_content_address docA10 signerA10 "fp" "png" "ip" "ua"
    7 stC10W "origbytes" rC10 stC10post (by rfl) (by rfl) rfl rfl
    (by decide) (by decide)).1
